import Mathlib

/-!
Shallow embedding of the per-application firewall policy manager
(`src/ui/conf/confappmanager.cpp`) of the `fort` repository.

The relational `app` / `app_alert` tables are modelled as lists, the SQL
statements of `confappmanager.cpp` as pure functions on that model, and the
manager's mutation paths (`addApp`, `updateApp`, `updateAppBlocked`,
`deleteApp`, `deleteApps`, `updateAppName`, `logBlockedApp`,
`updateAppEndTimes`, `updateAppEndTimer`) as functions returning the new
state together with a trace of externally visible events (transaction
commits/rollbacks, driver pushes, change notifications).

Components whose sources are not part of the repository snapshot
(`SqliteDb`, `ConfUtil`, `DriverManager`, `FirewallConf` group resolution,
`FileUtil::normalizePath`) are modelled from the spec, as noted on each
definition.
-/

namespace Fort

/-- One row of the `app` table (columns of `sqlUpsertApp` / `sqlUpdateApp`).
`path` is `none` when the SQL value is NULL; `endTime` is the `end_time`
column in milliseconds, `none` when NULL. -/
structure Row where
  appId : Nat
  appGroupId : Nat
  originPath : String
  path : Option String
  name : String
  isWildcard : Bool
  useGroupPerm : Bool
  applyChild : Bool
  killChild : Bool
  lanOnly : Bool
  logBlocked : Bool
  logConn : Bool
  blocked : Bool
  killProcess : Bool
  acceptZones : Nat
  rejectZones : Nat
  endTime : Option Int
  creatTime : Int
  deriving DecidableEq, Repr

/-- The C++ `App` value object (`conf/app.h` is not in the snapshot; fields
and zero/empty defaults are modelled from the spec's PolicyEntry and from the
uses in `confappmanager.cpp`). -/
structure App where
  appId : Nat := 0
  groupIndex : Nat := 0
  appOriginPath : String := ""
  appPath : String := ""
  appName : String := ""
  isWildcard : Bool := false
  useGroupPerm : Bool := false
  applyChild : Bool := false
  killChild : Bool := false
  lanOnly : Bool := false
  logBlocked : Bool := false
  logConn : Bool := false
  blocked : Bool := false
  killProcess : Bool := false
  acceptZones : Nat := 0
  rejectZones : Nat := 0
  endTime : Option Int := none
  alerted : Bool := false
  deriving DecidableEq, Repr

/-- The store: `app` rows, the `app_alert` side table (set of app ids), and
the next ROWID handed out on insert. -/
structure Store where
  rows : List Row
  alerts : List Nat
  nextId : Nat
  deriving DecidableEq, Repr

/-- Manager state: the store plus the `m_driveMask` member. -/
structure MgrState where
  store : Store
  driveMask : Nat
  deriving DecidableEq, Repr

/-- Externally visible events of one manager call, in order. -/
inductive Event where
  | commit
  | rollback
  | pushEntry (remove ok : Bool)
  | pushSnapshot (ok : Bool)
  | notifyAlerted
  | notifyChanged
  | notifyUpdated
  deriving DecidableEq, Repr

/-- Modelled from the spec: the Conf Encoder and Driver Sync Gateway
(`ConfUtil`, `DriverManager` are not in the snapshot).  `entryEncodeOk` /
`snapshotEncodeOk` are the outcomes of `writeAppEntry` / `write`,
`entryPushOk` / `snapshotPushOk` the outcomes of `writeApp` / `writeConf`,
and `entryMask` / `snapshotMask` the drive masks computed by the respective
encode. -/
structure DriverOracle where
  entryEncodeOk : Bool := true
  entryPushOk : Bool := true
  snapshotEncodeOk : Bool := true
  snapshotPushOk : Bool := true
  entryMask : Nat := 0
  snapshotMask : Nat := 0
  deriving DecidableEq, Repr

/-- Fault injection for the (up to two) mutating SQL statements of one
transaction; a failing statement leaves the store unchanged and reports
failure, per the spec's store contract (`SqliteDb` is not in the
snapshot). -/
structure Faults where
  f1 : Bool := false
  f2 : Bool := false
  deriving DecidableEq, Repr

def noFaults : Faults := {}

/-! ### SQL statement models -/

def rowPathIs (p : String) (r : Row) : Bool := r.path == some p

def countPath (rows : List Row) (p : String) : Nat :=
  (rows.filter (rowPathIs p)).length

def pathUnique (rows : List Row) : Prop := ∀ p, countPath rows p ≤ 1

def findRowByPath (rows : List Row) (p : String) : Option Row :=
  rows.find? (rowPathIs p)

/-- Model of `sqlSelectAppIdByPath` (0 when no row matches, as `toLongLong` of an
invalid QVariant). -/
def appIdByPath (st : Store) (p : String) : Nat :=
  match findRowByPath st.rows p with
  | some r => r.appId
  | none => 0

/-- Model of `(!app.appPath.isEmpty() ? app.appPath : QVariant())`: the empty path is
bound as SQL NULL. -/
def pathVar (s : String) : Option String := if s = "" then none else some s

/-- The SET list shared by `sqlUpsertApp`'s DO UPDATE branch: every writable
column except `path` and `creat_time`. -/
def upsertFields (gid : Nat) (a : App) (r : Row) : Row :=
  { r with
    appGroupId := gid, originPath := a.appOriginPath, name := a.appName,
    isWildcard := a.isWildcard, useGroupPerm := a.useGroupPerm,
    applyChild := a.applyChild, killChild := a.killChild, lanOnly := a.lanOnly,
    logBlocked := a.logBlocked, logConn := a.logConn, blocked := a.blocked,
    killProcess := a.killProcess, acceptZones := a.acceptZones,
    rejectZones := a.rejectZones, endTime := a.endTime }

/-- A freshly inserted row (`sqlUpsertApp`'s INSERT values). -/
def newRowFromApp (gid : Nat) (a : App) (id : Nat) (now : Int) : Row :=
  { appId := id, appGroupId := gid, originPath := a.appOriginPath,
    path := pathVar a.appPath, name := a.appName, isWildcard := a.isWildcard,
    useGroupPerm := a.useGroupPerm, applyChild := a.applyChild,
    killChild := a.killChild, lanOnly := a.lanOnly, logBlocked := a.logBlocked,
    logConn := a.logConn, blocked := a.blocked, killProcess := a.killProcess,
    acceptZones := a.acceptZones, rejectZones := a.rejectZones,
    endTime := a.endTime, creatTime := now }

def updateRowById (rows : List Row) (id : Nat) (f : Row → Row) : List Row :=
  rows.map (fun r => if r.appId == id then f r else r)

/-- Model of `sqlUpsertApp`: INSERT .. ON CONFLICT(path) DO UPDATE .. RETURNING
app_id.  A NULL path never conflicts (SQL unique indexes treat NULLs as
distinct). -/
def runUpsertApp (st : Store) (gid : Nat) (a : App) (now : Int) : Store × Nat :=
  let conflict : Option Row :=
    match pathVar a.appPath with
    | some p => findRowByPath st.rows p
    | none => none
  match conflict with
  | some r =>
      ({ st with rows := updateRowById st.rows r.appId (upsertFields gid a) }, r.appId)
  | none =>
      ({ st with
          rows := st.rows ++ [newRowFromApp gid a st.nextId now],
          nextId := st.nextId + 1 }, st.nextId)

/-- Model of `sqlUpdateApp`: sets every writable column including `path` (an UPDATE
matching no row still succeeds). -/
def runUpdateApp (st : Store) (gid : Nat) (a : App) : Store :=
  { st with rows := (updateRowById st.rows a.appId
      (fun r => { (upsertFields gid a r) with path := pathVar a.appPath })) }

/-- Model of `sqlUpdateAppBlocked`: SET blocked = ?2, kill_process = ?3,
end_time = NULL WHERE app_id = ?1. -/
def runUpdateAppBlocked (st : Store) (id : Nat) (blocked killProcess : Bool) : Store :=
  { st with rows := (updateRowById st.rows id
      (fun r => { r with blocked := blocked, killProcess := killProcess, endTime := none })) }

/-- Model of `sqlUpdateAppName`. -/
def runUpdateAppName (st : Store) (id : Nat) (name : String) : Store :=
  { st with rows := (updateRowById st.rows id (fun r => { r with name := name })) }

/-- Model of `sqlDeleteApp` with RETURNING path, is_wildcard; `none` when the id has
no row (the statement then returns no row and `executeEx` reports
failure). -/
def runDeleteApp (st : Store) (id : Nat) : Option (Store × Option String × Bool) :=
  match st.rows.find? (fun r => r.appId == id) with
  | some r =>
      some ({ st with rows := st.rows.filter (fun q => !(q.appId == id)) },
            r.path, r.isWildcard)
  | none => none

/-- Model of `sqlDeleteAppAlert`. -/
def runDeleteAppAlert (st : Store) (id : Nat) : Store :=
  { st with alerts := st.alerts.filter (fun i => !(i == id)) }

/-- Model of `sqlInsertAppAlert`; fails when the id is already present (`app_id` keys
the side table, per the spec's persisted-layout contract). -/
def runInsertAppAlert (st : Store) (id : Nat) : Store × Bool :=
  if st.alerts.contains id then (st, false)
  else ({ st with alerts := id :: st.alerts }, true)

/-- The `alerted` column of `SELECT_APP_FIELDS`:
`(alert.app_id IS NOT NULL)`. -/
def isAlerted (st : Store) (id : Nat) : Bool := st.alerts.contains id

/-- The `end_time` values of rows passing `end_time != 0 AND blocked = 0`
(`sqlSelectMinEndApp`'s WHERE clause). -/
def pendingEndTimes (st : Store) : List Int :=
  st.rows.filterMap (fun r =>
    if r.blocked then none
    else match r.endTime with
      | some t => if t == 0 then none else some t
      | none => none)

/-- Model of `sqlSelectMinEndApp`: MIN(end_time), with NULL read as 0 by
`toLongLong`. -/
def selectMinEndApp (st : Store) : Int :=
  match pendingEndTimes st with
  | [] => 0
  | t :: ts => ts.foldl min t

def APP_END_TIMER_INTERVAL_MIN : Int := 100
def APP_END_TIMER_INTERVAL_MAX : Int := 24 * 60 * 60 * 1000

/-- Model of `ConfAppManager::updateAppEndTimer`: `none` = timer stopped, `some i` =
single-shot timer armed for `i` milliseconds. -/
def updateAppEndTimer (st : Store) (now : Int) : Option Int :=
  let e := selectMinEndApp st
  if e != 0 then
    let delta := e - now
    some (max (if delta > 0 then min delta APP_END_TIMER_INTERVAL_MAX else 0)
              APP_END_TIMER_INTERVAL_MIN)
  else none

/-! ### Row selection with the `app_group` join

`FirewallConf` / `AppGroup` are not in the snapshot; per the spec's group
resolver contract, the group environment is the ordered list of live group
ids: `appGroupAt i` is `env.get? i`, and the `g.order_index` produced by the
join is the position of the row's `app_group_id` in `env`. -/

def groupIndexOf (env : List Nat) (gid : Nat) : Nat := env.indexOf gid

/-- Model of `ConfAppManager::fillApp`: `SELECT_APP_FIELDS` has no `name` and no
`end_time` column, so those `App` fields keep their defaults. -/
def fillApp (env : List Nat) (st : Store) (r : Row) : App :=
  { appId := r.appId, appOriginPath := r.originPath, appPath := r.path.getD "",
    isWildcard := r.isWildcard, useGroupPerm := r.useGroupPerm,
    applyChild := r.applyChild, killChild := r.killChild, lanOnly := r.lanOnly,
    logBlocked := r.logBlocked, logConn := r.logConn, blocked := r.blocked,
    killProcess := r.killProcess, acceptZones := r.acceptZones,
    rejectZones := r.rejectZones, groupIndex := groupIndexOf env r.appGroupId,
    alerted := isAlerted st r.appId }

/-- Model of `ConfAppManager::loadAppById` (`sqlSelectAppById`): the JOIN drops a row
whose group id is not live. -/
def loadAppById (env : List Nat) (st : Store) (id : Nat) : Option App :=
  match st.rows.find? (fun r => r.appId == id) with
  | some r => if env.contains r.appGroupId then some (fillApp env st r) else none
  | none => none

/-- Model of `sqlSelectEndedApps`: `end_time <= ?1 AND blocked = 0`, joined with
`app_group`. -/
def selectEndedApps (env : List Nat) (st : Store) (now : Int) : List Row :=
  st.rows.filter (fun r =>
    (match r.endTime with | some t => decide (t ≤ now) | none => false)
    && !r.blocked && env.contains r.appGroupId)

/-! ### Driver sync (`updateDriverConf` / `updateDriverUpdateApp`) -/

/-- Model of `ConfAppManager::updateDriverConf` (full snapshot): on success the drive
mask is replaced by the encode's mask. -/
def updateDriverConfFx (d : DriverOracle) (mask : Nat) : Nat × Bool × List Event :=
  if !d.snapshotEncodeOk then (mask, false, [])
  else if !d.snapshotPushOk then (mask, false, [Event.pushSnapshot false])
  else (d.snapshotMask, true, [Event.pushSnapshot true])

/-- Model of `ConfAppManager::updateDriverUpdateApp` (single-entry delta): on success
`m_driveMask |= remove ? 0 : confUtil.driveMask()`. -/
def updateDriverUpdateAppFx (d : DriverOracle) (mask : Nat) (remove : Bool) :
    Nat × Bool × List Event :=
  if !d.entryEncodeOk then (mask, false, [])
  else if !d.entryPushOk then (mask, false, [Event.pushEntry remove false])
  else ((if remove then mask else mask ||| d.entryMask), true,
        [Event.pushEntry remove true])

/-- Model of `ConfAppManager::updateDriverUpdateAppConf`. -/
def updateDriverUpdateAppConfFx (d : DriverOracle) (mask : Nat) (a : App) :
    Nat × Bool × List Event :=
  if a.isWildcard then updateDriverConfFx d mask
  else updateDriverUpdateAppFx d mask false

/-! ### Manager mutation paths -/

/-- Model of `ConfAppManager::addOrUpdateApp`: group check, transaction of upsert +
alert reconcile (the alert statement's outcome is not checked by the code),
commit, end-timer recompute, `emitAppChanged`. -/
def addOrUpdateAppOp (env : List Nat) (s : MgrState) (a : App) (now : Int)
    (fs : Faults) : MgrState × Bool × List Event :=
  match env.get? a.groupIndex with
  | none => (s, false, [])
  | some gid =>
    if fs.f1 then (s, false, [Event.rollback])
    else
      let u := runUpsertApp s.store gid a now
      let st2 :=
        if fs.f2 then u.1
        else if a.alerted then (runInsertAppAlert u.1 u.2).1
        else runDeleteAppAlert u.1 u.2
      ({ s with store := st2 }, true, [Event.commit, Event.notifyChanged])

/-- Model of `ConfAppManager::addApp`: upsert, then driver sync (push outcome does
not change the return value). -/
def addAppOp (env : List Nat) (d : DriverOracle) (s : MgrState) (a : App)
    (now : Int) (fs : Faults) : MgrState × Bool × List Event :=
  let r := addOrUpdateAppOp env s a now fs
  if !r.2.1 then (r.1, false, r.2.2)
  else
    let p := updateDriverUpdateAppConfFx d r.1.driveMask a
    ({ r.1 with driveMask := p.1 }, true, r.2.2 ++ p.2.2)

/-- Model of `ConfAppManager::updateApp`: group check, transaction of full update +
alert clear, commit, `emitAppUpdated`, driver sync. -/
def updateAppOp (env : List Nat) (d : DriverOracle) (s : MgrState) (a : App)
    (fs : Faults) : MgrState × Bool × List Event :=
  match env.get? a.groupIndex with
  | none => (s, false, [])
  | some gid =>
    if fs.f1 then (s, false, [Event.rollback])
    else if fs.f2 then (s, false, [Event.rollback])
    else
      let st2 := runDeleteAppAlert (runUpdateApp s.store gid a) a.appId
      let p := updateDriverUpdateAppConfFx d s.driveMask a
      ({ store := st2, driveMask := p.1 }, true,
       [Event.commit, Event.notifyUpdated] ++ p.2.2)

/-- Model of `ConfAppManager::updateAppName`: a single non-transactional UPDATE; the
alert table is not touched. -/
def updateAppNameOp (s : MgrState) (id : Nat) (name : String) (fs : Faults) :
    MgrState × Bool × List Event :=
  if fs.f1 then (s, false, [])
  else ({ s with store := runUpdateAppName s.store id name }, true,
        [Event.notifyUpdated])

/-- Model of `ConfAppManager::prepareAppBlocked`: clears `alerted`; a non-alerted app
already holding the requested `blocked` / `killProcess` values is a no-op. -/
def prepareAppBlocked (a : App) (blocked killProcess : Bool) : App × Bool :=
  let wasAlerted := a.alerted
  let a1 := { a with alerted := false }
  if !wasAlerted && (a.blocked == blocked && a.killProcess == killProcess) then
    (a1, false)
  else ({ a1 with blocked := blocked, killProcess := killProcess }, true)

/-- Model of `ConfAppManager::saveAppBlocked`: transaction of `sqlUpdateAppBlocked` +
alert clear, commit, `emitAppUpdated`. -/
def saveAppBlockedOp (s : MgrState) (a : App) (fs : Faults) :
    MgrState × Bool × List Event :=
  if fs.f1 then (s, false, [Event.rollback])
  else if fs.f2 then (s, false, [Event.rollback])
  else
    ({ s with store := (runDeleteAppAlert
        (runUpdateAppBlocked s.store a.appId a.blocked a.killProcess) a.appId) },
     true, [Event.commit, Event.notifyUpdated])

/-- Model of `ConfAppManager::updateAppBlocked`: load, prepare, save, then a
single-entry driver push for non-wildcard apps (wildcard apps set the
caller's flag instead).  The result is
(state, ok, isWildcard out-parameter, trace). -/
def updateAppBlockedOp (env : List Nat) (d : DriverOracle) (s : MgrState)
    (id : Nat) (blocked killProcess : Bool) (iw : Bool) (fs : Faults) :
    MgrState × Bool × Bool × List Event :=
  match loadAppById env s.store id with
  | none => (s, false, iw, [])
  | some a0 =>
    let pr := prepareAppBlocked a0 blocked killProcess
    if !pr.2 then (s, false, iw, [])
    else
      let sv := saveAppBlockedOp s pr.1 fs
      if !sv.2.1 then (sv.1, false, iw, sv.2.2)
      else if pr.1.isWildcard then (sv.1, true, true, sv.2.2)
      else
        let p := updateDriverUpdateAppFx d sv.1.driveMask false
        ({ sv.1 with driveMask := p.1 }, true, iw, sv.2.2 ++ p.2.2)

/-- Model of `ConfAppManager::deleteApp`: transaction of delete-with-RETURNING +
alert-record delete, commit, then either the wildcard flag is set or a
single-entry removal push happens, then `emitAppChanged`. -/
def deleteAppOp (d : DriverOracle) (s : MgrState) (id : Nat) (iw : Bool)
    (fs : Faults) : MgrState × Bool × Bool × List Event :=
  match (if fs.f1 then none else runDeleteApp s.store id) with
  | none => (s, false, iw, [Event.rollback])
  | some del =>
    if fs.f2 then (s, false, iw, [Event.rollback])
    else
      let st2 := runDeleteAppAlert del.1 id
      if del.2.2 then
        ({ s with store := st2 }, true, true, [Event.commit, Event.notifyChanged])
      else
        let p := updateDriverUpdateAppFx d s.driveMask true
        ({ store := st2, driveMask := p.1 }, true, iw,
         [Event.commit] ++ p.2.2 ++ [Event.notifyChanged])

/-- The loop of `ConfAppManager::deleteApps`, threading the `isWildcard`
flag. -/
def deleteAppsLoop (d : DriverOracle) (s : MgrState) (ids : List Nat)
    (iw : Bool) : MgrState × Bool × List Event :=
  match ids with
  | [] => (s, iw, [])
  | id :: rest =>
    let one := deleteAppOp d s id iw noFaults
    let more := deleteAppsLoop d one.1 rest one.2.2.1
    (more.1, more.2.1, one.2.2.2 ++ more.2.2)

/-- Model of `ConfAppManager::deleteApps`: per-entry deletes, then one full-snapshot
push iff some deleted entry was wildcard. -/
def deleteAppsOp (d : DriverOracle) (s : MgrState) (ids : List Nat) :
    MgrState × List Event :=
  let l := deleteAppsLoop d s ids false
  if l.2.1 then
    let p := updateDriverConfFx d l.1.driveMask
    ({ l.1 with driveMask := p.1 }, l.2.2 ++ p.2.2)
  else (l.1, l.2.2)

/-- Model of `ConfAppManager::logBlockedApp`.  `FileUtil::normalizePath` and the app
name lookup are not in the snapshot; the normalized path and resolved name
are taken as inputs (the spec's collaborator contracts). -/
def logBlockedAppOp (env : List Nat) (s : MgrState)
    (originPath appPath appName : String) (blocked : Bool) (now : Int) :
    MgrState × List Event :=
  if appIdByPath s.store appPath > 0 then (s, [])
  else
    let a : App :=
      { blocked := blocked, alerted := true, groupIndex := 0,
        appOriginPath := originPath, appPath := appPath, appName := appName }
    let r := addOrUpdateAppOp env s a now noFaults
    if r.2.1 then (r.1, r.2.2 ++ [Event.notifyAlerted]) else (r.1, r.2.2)

/-- The loop of `ConfAppManager::updateAppEndTimes`: each expired row is
re-read through `fillApp` (which leaves `endTime` and `appName` at their
defaults), forced to blocked without kill, and run through the full update
path. -/
def updateAppEndTimesLoop (env : List Nat) (d : DriverOracle) (s : MgrState)
    (rs : List Row) : MgrState × List Event :=
  match rs with
  | [] => (s, [])
  | r :: rest =>
    let a1 := { (fillApp env s.store r) with blocked := true, killProcess := false }
    let one := updateAppOp env d s a1 noFaults
    let more := updateAppEndTimesLoop env d one.1 rest
    (more.1, one.2.2 ++ more.2)

/-- Model of `ConfAppManager::updateAppEndTimes`: process all expired rows, then
recompute the end timer.  The third component is the timer state after the
firing. -/
def updateAppEndTimesOp (env : List Nat) (d : DriverOracle) (s : MgrState)
    (now : Int) : MgrState × List Event × Option Int :=
  let l := updateAppEndTimesLoop env d s (selectEndedApps env s.store now)
  (l.1, l.2, updateAppEndTimer l.1.store now)

/-! ### Trace observations -/

def isPushEvent : Event → Bool
  | .pushEntry _ _ => true
  | .pushSnapshot _ => true
  | _ => false

def isEntryPush : Event → Bool
  | .pushEntry _ _ => true
  | _ => false

def isSnapshotPush : Event → Bool
  | .pushSnapshot _ => true
  | _ => false

def countEntryPushes (tr : List Event) : Nat := (tr.filter isEntryPush).length

def countSnapshotPushes (tr : List Event) : Nat := (tr.filter isSnapshotPush).length

/-- Every driver push in the trace is preceded by a transaction commit. -/
def pushAfterCommitAux : Bool → List Event → Bool
  | _, [] => true
  | _, Event.commit :: rest => pushAfterCommitAux true rest
  | seen, e :: rest => (!isPushEvent e || seen) && pushAfterCommitAux seen rest

def pushAfterCommit (tr : List Event) : Bool := pushAfterCommitAux false tr

/-! ### Concrete stores and inputs used by the claim theorems -/

def c9ex_oracle : DriverOracle := { entryMask := 2, snapshotMask := 4 }

def c10w_row : Row :=
  { appId := 1, appGroupId := 6, originPath := "", path := none, name := "",
    isWildcard := false, useGroupPerm := false, applyChild := false,
    killChild := false, lanOnly := false, logBlocked := false, logConn := false,
    blocked := true, killProcess := false, acceptZones := 0, rejectZones := 0,
    endTime := some 777, creatTime := 0 }

def c10w_state : MgrState :=
  { store := { rows := [c10w_row], alerts := [], nextId := 2 }, driveMask := 0 }

def c3ex_row : Row :=
  { appId := 1, appGroupId := 3, originPath := "", path := none, name := "",
    isWildcard := false, useGroupPerm := false, applyChild := false,
    killChild := false, lanOnly := false, logBlocked := false, logConn := false,
    blocked := false, killProcess := false, acceptZones := 0, rejectZones := 0,
    endTime := some 3, creatTime := 0 }

def c3ex_app : App := { appId := 1, groupIndex := 0, blocked := true, endTime := some 5 }

def c3ex_state : MgrState :=
  { store := { rows := [c3ex_row], alerts := [], nextId := 2 }, driveMask := 0 }

def c3w_row : Row :=
  { c3ex_row with blocked := true, killProcess := false, endTime := none }

def c8ex_app : App :=
  { groupIndex := 0, appOriginPath := "p", appPath := "p", alerted := true }

def c8ex_state : MgrState :=
  { store := { rows := [], alerts := [], nextId := 1 }, driveMask := 0 }

def c7ex_state0 : MgrState :=
  { store := { rows := [], alerts := [], nextId := 1 }, driveMask := 0 }

def c7ex_state1 : MgrState := (logBlockedAppOp [7] c7ex_state0 "P" "p" "N" true 100).1

/-- The writable columns written by both branches of `sqlUpsertApp`. -/
def rowMatchesApp (g : Nat) (a : App) (r : Row) : Prop :=
  r.appGroupId = g ∧ r.originPath = a.appOriginPath ∧ r.name = a.appName
  ∧ r.isWildcard = a.isWildcard ∧ r.useGroupPerm = a.useGroupPerm
  ∧ r.applyChild = a.applyChild ∧ r.killChild = a.killChild
  ∧ r.lanOnly = a.lanOnly ∧ r.logBlocked = a.logBlocked ∧ r.logConn = a.logConn
  ∧ r.blocked = a.blocked ∧ r.killProcess = a.killProcess
  ∧ r.acceptZones = a.acceptZones ∧ r.rejectZones = a.rejectZones
  ∧ r.endTime = a.endTime

def c2w_app1 : App :=
  { groupIndex := 0, appOriginPath := "o1", appPath := "p", appName := "n1",
    blocked := false, endTime := some 9 }

def c2w_app2 : App :=
  { groupIndex := 0, appOriginPath := "o2", appPath := "p", appName := "n2",
    blocked := true }

/-- A row with empty texts and all flags clear, as a building block for
concrete stores. -/
def plainRow (i gid : Nat) (w : Bool) (e : Option Int) (b : Bool) : Row :=
  { appId := i, appGroupId := gid, originPath := "", path := none, name := "",
    isWildcard := w, useGroupPerm := false, applyChild := false, killChild := false,
    lanOnly := false, logBlocked := false, logConn := false, blocked := b,
    killProcess := false, acceptZones := 0, rejectZones := 0, endTime := e,
    creatTime := 0 }

def c6ex_store : Store :=
  { rows := [plainRow 1 1 false none false, plainRow 2 1 false none false,
             plainRow 3 1 false none false, plainRow 4 1 false none false,
             plainRow 5 1 false none false, plainRow 6 1 false none false,
             plainRow 7 1 false none false, plainRow 8 1 false none false],
    alerts := [], nextId := 9 }

def c6w_store : Store :=
  { rows := [plainRow 1 1 false none false, plainRow 2 1 false none false,
             plainRow 3 1 false none false, plainRow 9 1 true none false],
    alerts := [], nextId := 10 }

/-! ### Helper lemmas -/

theorem pushAfterCommitAux_true (tr : List Event) : pushAfterCommitAux true tr = true := by
  induction tr with
  | nil => rfl
  | cons e rest ih => cases e <;> simp [pushAfterCommitAux, ih, isPushEvent]

theorem contains_filter_ne (l : List Nat) (x : Nat) :
    (l.filter (fun i => !(i == x))).contains x = false := by
  simp [List.contains, List.elem_iff, List.mem_filter]

theorem contains_eq_true_iff_mem (l : List Nat) (x : Nat) :
    l.contains x = true ↔ x ∈ l := by
  simp [List.contains, List.elem_iff]

theorem foldl_min_mem (t : Int) (ts : List Int) : ts.foldl min t ∈ t :: ts := by
  induction ts generalizing t with
  | nil => simp
  | cons h hs ih =>
    have hmem := ih (min t h)
    simp only [List.foldl_cons]
    rcases List.mem_cons.mp hmem with heq | hin
    · rcases min_choice t h with h3 | h3
      · exact List.mem_cons.mpr (Or.inl (heq.trans h3))
      · exact List.mem_cons.mpr (Or.inr (List.mem_cons.mpr (Or.inl (heq.trans h3))))
    · exact List.mem_cons.mpr (Or.inr (List.mem_cons.mpr (Or.inr hin)))

theorem pendingEndTimes_ne_zero (st : Store) : ∀ t ∈ pendingEndTimes st, ¬ t = 0 := by
  intro t ht
  simp only [pendingEndTimes, List.mem_filterMap] at ht
  obtain ⟨r, _, hr⟩ := ht
  by_cases hb : r.blocked
  · simp [hb] at hr
  · cases he : r.endTime with
    | none => simp [hb, he] at hr
    | some u =>
      by_cases hu : u = 0
      · simp [hb, he, hu] at hr
      · simp [hb, he, hu] at hr
        subst hr
        exact hu

theorem selectMinEndApp_ne_zero (st : Store) (h : pendingEndTimes st ≠ []) :
    ¬ selectMinEndApp st = 0 := by
  unfold selectMinEndApp
  cases hp : pendingEndTimes st with
  | nil => exact absurd hp h
  | cons t ts =>
    have hmem : ts.foldl min t ∈ t :: ts := foldl_min_mem t ts
    rw [← hp] at hmem
    exact pendingEndTimes_ne_zero st _ hmem

theorem get?_indexOf (l : List Nat) (a : Nat) (h : a ∈ l) :
    l.get? (l.indexOf a) = some a := by
  have hlt : l.indexOf a < l.length := List.indexOf_lt_length.mpr h
  rw [List.get?_eq_get hlt, List.indexOf_get hlt]

theorem mem_updateRowById (rows : List Row) (id : Nat) (f : Row → Row) (r : Row)
    (hr : r ∈ updateRowById rows id f) :
    ∃ r0, r0 ∈ rows ∧ r = (if r0.appId == id then f r0 else r0) := by
  unfold updateRowById at hr
  obtain ⟨r0, h0, heq⟩ := List.mem_map.mp hr
  exact ⟨r0, h0, heq.symm⟩

/-! ### C5: expiry timer clamping -/

/-- C5: whenever the expiry timer is recomputed, if no row has a nonzero
`endTime` with `blocked == false` the timer is stopped; otherwise it is
armed for `max(clamp(minEndTime - now, 0, 1 day), 100 ms)`, so the armed
interval is always within [100 ms, 24h] and a deadline at or before `now`
arms the minimum 100 ms interval. -/
theorem c5_end_timer_clamped (st : Store) (now : Int) :
    (pendingEndTimes st = [] → updateAppEndTimer st now = none)
    ∧ (∀ i, updateAppEndTimer st now = some i →
        APP_END_TIMER_INTERVAL_MIN ≤ i ∧ i ≤ APP_END_TIMER_INTERVAL_MAX)
    ∧ (pendingEndTimes st ≠ [] →
        updateAppEndTimer st now =
          some (max (min (max (selectMinEndApp st - now) 0) APP_END_TIMER_INTERVAL_MAX)
                APP_END_TIMER_INTERVAL_MIN))
    ∧ (pendingEndTimes st ≠ [] → selectMinEndApp st ≤ now →
        updateAppEndTimer st now = some APP_END_TIMER_INTERVAL_MIN) := by
  have hmaxpos : (0 : Int) ≤ APP_END_TIMER_INTERVAL_MAX := by
    unfold APP_END_TIMER_INTERVAL_MAX
    norm_num
  have hminmax : APP_END_TIMER_INTERVAL_MIN ≤ APP_END_TIMER_INTERVAL_MAX := by
    unfold APP_END_TIMER_INTERVAL_MIN APP_END_TIMER_INTERVAL_MAX
    norm_num
  refine ⟨?_, ?_, ?_, ?_⟩
  · intro h
    unfold updateAppEndTimer selectMinEndApp
    rw [h]
    simp
  · intro i hi
    unfold updateAppEndTimer at hi
    by_cases he : selectMinEndApp st = 0
    · simp [he] at hi
    · simp only [he, bne_iff_ne, ne_eq, not_false_iff, if_true, Option.some_inj] at hi
      constructor
      · rw [← hi]
        exact le_max_right _ _
      · rw [← hi]
        apply max_le _ hminmax
        by_cases hd : selectMinEndApp st - now > 0
        · simp only [hd, if_true]
          exact min_le_right _ _
        · simp only [hd, if_false]
          exact hmaxpos
  · intro h
    have he := selectMinEndApp_ne_zero st h
    unfold updateAppEndTimer
    simp only [he, bne_iff_ne, ne_eq, not_false_iff, if_true, Option.some_inj]
    congr 1
    by_cases hd : selectMinEndApp st - now > 0
    · simp only [hd, if_true]
      congr 1
      exact (max_eq_left (le_of_lt hd)).symm
    · simp only [hd, if_false]
      have hle : selectMinEndApp st - now ≤ 0 := le_of_not_lt hd
      rw [max_eq_right hle, min_eq_left hmaxpos]
  · intro h hle
    have he := selectMinEndApp_ne_zero st h
    unfold updateAppEndTimer
    have hd : ¬ selectMinEndApp st - now > 0 := by
      simp only [gt_iff_lt, not_lt]
      exact sub_nonpos.mpr hle
    simp only [he, bne_iff_ne, ne_eq, not_false_iff, if_true, hd, if_false]
    all_goals decide

/-- C5 witness: a store with one pending deadline already in the past arms
the 100 ms minimum interval. -/
theorem c5_witness :
    updateAppEndTimer
      { rows := [{ appId := 1, appGroupId := 1, originPath := "", path := none,
                   name := "", isWildcard := false, useGroupPerm := false,
                   applyChild := false, killChild := false, lanOnly := false,
                   logBlocked := false, logConn := false, blocked := false,
                   killProcess := false, acceptZones := 0, rejectZones := 0,
                   endTime := some 2000, creatTime := 0 }],
        alerts := [], nextId := 2 } 2500 = some APP_END_TIMER_INTERVAL_MIN :=
  (c5_end_timer_clamped _ 2500).2.2.2 (by decide) (by decide)

/-! ### C9: drive mask after a successful push -/

/-- C9 counterexample: after a successful single-entry update push with a
previously stored mask of 1 and an encode mask of 2, the stored mask is
1 ||| 2 = 3, not the encode's mask 2 — the single-entry path ORs instead of
replacing. -/
theorem c9_counterexample :
    (updateDriverUpdateAppFx c9ex_oracle 1 false).2.1 = true
    ∧ (updateDriverUpdateAppFx c9ex_oracle 1 false).1 = 3
    ∧ ¬ (updateDriverUpdateAppFx c9ex_oracle 1 false).1 = c9ex_oracle.entryMask := by
  decide

/-- C9 amended: after a successful full-snapshot push the stored drive mask
is replaced by that encode's mask; after a successful single-entry update
push the encode's mask is OR-ed into the stored mask; a successful removal
push and any failed push leave the stored mask unchanged. -/
theorem c9_amended_mask_update (d : DriverOracle) (mask : Nat) :
    (d.snapshotEncodeOk = true → d.snapshotPushOk = true →
      (updateDriverConfFx d mask).1 = d.snapshotMask)
    ∧ (d.entryEncodeOk = true → d.entryPushOk = true →
      (updateDriverUpdateAppFx d mask false).1 = mask ||| d.entryMask)
    ∧ (d.entryEncodeOk = true → d.entryPushOk = true →
      (updateDriverUpdateAppFx d mask true).1 = mask)
    ∧ ((updateDriverConfFx d mask).2.1 = false → (updateDriverConfFx d mask).1 = mask)
    ∧ ((updateDriverUpdateAppFx d mask false).2.1 = false →
      (updateDriverUpdateAppFx d mask false).1 = mask) := by
  refine ⟨?_, ?_, ?_, ?_, ?_⟩
  · intro h1 h2
    simp [updateDriverConfFx, h1, h2]
  · intro h1 h2
    simp [updateDriverUpdateAppFx, h1, h2]
  · intro h1 h2
    simp [updateDriverUpdateAppFx, h1, h2]
  · intro h
    unfold updateDriverConfFx at h ⊢
    by_cases h1 : d.snapshotEncodeOk
    · by_cases h2 : d.snapshotPushOk
      · simp [h1, h2] at h
      · simp [h1, h2]
    · simp [h1]
  · intro h
    unfold updateDriverUpdateAppFx at h ⊢
    by_cases h1 : d.entryEncodeOk
    · by_cases h2 : d.entryPushOk
      · simp [h1, h2] at h
      · simp [h1, h2]
    · simp [h1]

/-- C9 witness: the amended mask rules evaluated at a concrete oracle. -/
theorem c9_witness :
    (updateDriverConfFx c9ex_oracle 1).1 = 4
    ∧ (updateDriverUpdateAppFx c9ex_oracle 1 false).1 = 3
    ∧ (updateDriverUpdateAppFx c9ex_oracle 1 true).1 = 1 :=
  ⟨(c9_amended_mask_update c9ex_oracle 1).1 rfl rfl,
   (c9_amended_mask_update c9ex_oracle 1).2.1 rfl rfl,
   (c9_amended_mask_update c9ex_oracle 1).2.2.1 rfl rfl⟩

/-! ### C10: same-value blocked-state update is a no-op -/

/-- C10: for a stored entry whose alerted flag is false, a blocked-state
update requesting the `blocked` / `killProcess` values the row already holds
returns false and leaves the state untouched: no mutating statement runs
(the row's `endTime` is not cleared), no notification is emitted and no
driver push occurs. -/
theorem c10_blocked_noop (env : List Nat) (d : DriverOracle) (s : MgrState)
    (id : Nat) (iw : Bool) (fs : Faults) (r : Row)
    (hfind : s.store.rows.find? (fun q => q.appId == id) = some r)
    (hgrp : env.contains r.appGroupId = true)
    (halert : s.store.alerts.contains id = false) :
    updateAppBlockedOp env d s id r.blocked r.killProcess iw fs = (s, false, iw, []) := by
  have hid : r.appId = id := by
    have := List.find?_some hfind
    exact beq_iff_eq.mp this
  have hmem : id ∉ s.store.alerts := by
    intro hm
    rw [(contains_eq_true_iff_mem _ _).mpr hm] at halert
    exact absurd halert (by decide)
  unfold updateAppBlockedOp loadAppById
  rw [hfind]
  simp only [hgrp, if_true]
  unfold prepareAppBlocked fillApp isAlerted
  rw [hid]
  simp [halert, hmem]

/-- C10 witness: a concrete non-alerted blocked row with a stale `endTime`;
re-requesting its current state is a no-op. -/
theorem c10_witness :
    updateAppBlockedOp [6] { } c10w_state 1 true false false noFaults
      = (c10w_state, false, false, []) :=
  c10_blocked_noop [6] { } c10w_state 1 false noFaults c10w_row
    (by decide) (by decide) (by decide)

/-! ### C3: blocked = true versus endTime -/

/-- C3 counterexample: the full update path (`ConfAppManager::updateApp`)
persists `blocked = true` together with the caller's non-null `endTime`:
after updating row 1 with `blocked = true, endTime = 5`, the stored row
holds `blocked == true` and `endTime == 5`, so not every operation that
persists `blocked = true` clears `endTime`, and a row with `blocked == true`
and non-null `endTime` is reachable. -/
theorem c3_counterexample :
    (updateAppOp [3] { } c3ex_state c3ex_app noFaults).2.1 = true
    ∧ ((updateAppOp [3] { } c3ex_state c3ex_app noFaults).1.store.rows.map
        (fun r => (r.blocked, r.endTime))) = [(true, some 5)] := by
  decide

/-- C3 amended: the blocked-state update path (`saveAppBlocked`, i.e.
`sqlUpdateAppBlocked`) clears the row's `endTime` unconditionally, whatever
`endTime` and flags the caller passed; the full update and upsert paths,
however, persist the caller's `endTime` verbatim even when `blocked = true`,
so the no-blocked-row-has-endTime invariant is not enforced by the store
operations themselves (the UI edit dialog only passes a non-null `endTime`
when `blocked` is false). -/
theorem c3_amended_blocked_clears_endtime (s : MgrState) (a : App) (fs : Faults)
    (hok : (saveAppBlockedOp s a fs).2.1 = true) :
    ∀ r ∈ (saveAppBlockedOp s a fs).1.store.rows, r.appId = a.appId →
      r.blocked = a.blocked ∧ r.killProcess = a.killProcess ∧ r.endTime = none := by
  unfold saveAppBlockedOp at hok ⊢
  by_cases h1 : fs.f1
  · simp [h1] at hok
  · by_cases h2 : fs.f2
    · simp [h1, h2] at hok
    · simp only [h1, h2, if_false]
      intro r hr hid
      have hr2 : r ∈ updateRowById s.store.rows a.appId
          (fun q => { q with blocked := a.blocked, killProcess := a.killProcess, endTime := none }) := hr
      obtain ⟨r0, _, heq⟩ := mem_updateRowById _ _ _ _ hr2
      by_cases hb : r0.appId == a.appId
      · rw [if_pos hb] at heq
        subst heq
        exact ⟨rfl, rfl, rfl⟩
      · rw [if_neg hb] at heq
        subst heq
        exact absurd (beq_iff_eq.mpr hid) hb

/-- C3 witness: the amended clearing rule applied to a concrete alerted row
with a pending `endTime`. -/
theorem c3_witness :
    c3w_row.blocked = c3ex_app.blocked ∧ c3w_row.killProcess = c3ex_app.killProcess
    ∧ c3w_row.endTime = none :=
  c3_amended_blocked_clears_endtime c3ex_state c3ex_app noFaults (by decide)
    c3w_row (by decide) (by decide)

/-! ### C8: transactional rollback on statement failure -/

/-- C8 counterexample: in the upsert path (`addOrUpdateApp`) the
alert-reconcile statement's outcome is ignored; when that statement fails
the transaction is still committed, the call returns success, the
notification fires and the upserted row stays in the store — contradicting
"if any statement in it fails, the transaction is rolled back [and] the call
returns failure". -/
theorem c8_counterexample :
    (addOrUpdateAppOp [7] c8ex_state c8ex_app 5 { f1 := false, f2 := true }).2.1 = true
    ∧ Event.commit ∈
        (addOrUpdateAppOp [7] c8ex_state c8ex_app 5 { f1 := false, f2 := true }).2.2
    ∧ Event.notifyChanged ∈
        (addOrUpdateAppOp [7] c8ex_state c8ex_app 5 { f1 := false, f2 := true }).2.2
    ∧ (addOrUpdateAppOp [7] c8ex_state c8ex_app 5
        { f1 := false, f2 := true }).1.store.rows.length = 1 := by
  decide

/-- C8 amended: the full update, blocked-state update and delete mutations
run inside an explicit transaction and any statement failure rolls the
transaction back: the call returns failure, the store is left unchanged, and
no notification or driver sync is attempted.  The upsert also rolls back
when its first (upsert) statement fails; a failure of its alert-reconcile
statement, however, is ignored — the transaction still commits, the call
reports success and only the alert reconciliation is lost. -/
theorem c8_amended_transaction_rollback (env : List Nat) (d : DriverOracle)
    (s : MgrState) (a : App) (g : Nat) (id : Nat) (iw : Bool) (fs : Faults)
    (now : Int) (hg : env.get? a.groupIndex = some g) :
    ((fs.f1 = true ∨ fs.f2 = true) →
      updateAppOp env d s a fs = (s, false, [Event.rollback]))
    ∧ ((fs.f1 = true ∨ fs.f2 = true) →
      saveAppBlockedOp s a fs = (s, false, [Event.rollback]))
    ∧ ((fs.f1 = true ∨ fs.f2 = true) →
      deleteAppOp d s id iw fs = (s, false, iw, [Event.rollback]))
    ∧ (fs.f1 = true →
      addOrUpdateAppOp env s a now fs = (s, false, [Event.rollback]))
    ∧ (fs.f1 = false → fs.f2 = true →
      (addOrUpdateAppOp env s a now fs).2.1 = true
      ∧ (addOrUpdateAppOp env s a now fs).2.2 = [Event.commit, Event.notifyChanged]
      ∧ (addOrUpdateAppOp env s a now fs).1.store = (runUpsertApp s.store g a now).1) := by
  refine ⟨?_, ?_, ?_, ?_, ?_⟩
  · intro hf
    unfold updateAppOp
    rw [hg]
    rcases hf with h | h
    · simp [h]
    · by_cases h1 : fs.f1
      · simp [h1]
      · simp [h1, h]
  · intro hf
    unfold saveAppBlockedOp
    rcases hf with h | h
    · simp [h]
    · by_cases h1 : fs.f1
      · simp [h1]
      · simp [h1, h]
  · intro hf
    unfold deleteAppOp
    rcases hf with h | h
    · simp [h]
    · by_cases h1 : fs.f1
      · simp [h1]
      · simp only [h1, Bool.false_eq_true, if_false]
        cases hdel : runDeleteApp s.store id <;> simp [h, hdel]
  · intro h
    unfold addOrUpdateAppOp
    rw [hg]
    simp [h]
  · intro h1 h2
    unfold addOrUpdateAppOp
    rw [hg]
    simp [h1, h2]

/-- C8 witness: the amended rollback/commit behaviour at concrete inputs. -/
theorem c8_witness :
    updateAppOp [7] { } c8ex_state c8ex_app { f1 := true, f2 := false }
      = (c8ex_state, false, [Event.rollback])
    ∧ (addOrUpdateAppOp [7] c8ex_state c8ex_app 5 { f1 := false, f2 := true }).2.1 = true :=
  ⟨(c8_amended_transaction_rollback [7] { } c8ex_state c8ex_app 7 1 false
      { f1 := true, f2 := false } 5 (by decide)).1 (Or.inl rfl),
   ((c8_amended_transaction_rollback [7] { } c8ex_state c8ex_app 7 1 false
      { f1 := false, f2 := true } 5 (by decide)).2.2.2.2 rfl rfl).1⟩

/-! ### C1: commit precedes sync; a failed push never touches the store -/

/-- C1: on every mutation path (add, full update, blocked-state update,
delete) the resulting store is the same for any two driver oracles — in
particular a failed push leaves the committed rows exactly as the commit
wrote them, so re-reading a row after a failed push returns the committed
values and the store is never rolled back together with the push — and
every driver push event in the trace is preceded by a transaction commit. -/
theorem c1_commit_precedes_sync (env : List Nat) (d1 d2 : DriverOracle)
    (s : MgrState) (a : App) (now : Int) (id : Nat) (b k : Bool) (iw : Bool)
    (fs : Faults) :
    ((addAppOp env d1 s a now fs).1.store = (addAppOp env d2 s a now fs).1.store
      ∧ pushAfterCommit (addAppOp env d1 s a now fs).2.2 = true)
    ∧ ((updateAppOp env d1 s a fs).1.store = (updateAppOp env d2 s a fs).1.store
      ∧ pushAfterCommit (updateAppOp env d1 s a fs).2.2 = true)
    ∧ ((updateAppBlockedOp env d1 s id b k iw fs).1.store
        = (updateAppBlockedOp env d2 s id b k iw fs).1.store
      ∧ pushAfterCommit (updateAppBlockedOp env d1 s id b k iw fs).2.2.2 = true)
    ∧ ((deleteAppOp d1 s id iw fs).1.store = (deleteAppOp d2 s id iw fs).1.store
      ∧ pushAfterCommit (deleteAppOp d1 s id iw fs).2.2.2 = true) := by
  refine ⟨⟨?_, ?_⟩, ⟨?_, ?_⟩, ⟨?_, ?_⟩, ⟨?_, ?_⟩⟩
  · unfold addAppOp addOrUpdateAppOp
    cases henv : env.get? a.groupIndex <;>
      by_cases h1 : fs.f1 <;>
        simp [h1]
  · unfold addAppOp addOrUpdateAppOp
    cases henv : env.get? a.groupIndex <;>
      by_cases h1 : fs.f1 <;>
        simp [h1, pushAfterCommit, pushAfterCommitAux, pushAfterCommitAux_true,
          isPushEvent]
  · unfold updateAppOp
    cases henv : env.get? a.groupIndex <;>
      by_cases h1 : fs.f1 <;> by_cases h2 : fs.f2 <;>
        simp [h1, h2]
  · unfold updateAppOp
    cases henv : env.get? a.groupIndex <;>
      by_cases h1 : fs.f1 <;> by_cases h2 : fs.f2 <;>
        simp [h1, h2, pushAfterCommit, pushAfterCommitAux, pushAfterCommitAux_true,
          isPushEvent]
  · unfold updateAppBlockedOp saveAppBlockedOp
    cases hload : loadAppById env s.store id with
    | none => simp
    | some a0 =>
      by_cases h1 : fs.f1
      · simp [h1]
      · by_cases h2 : fs.f2
        · simp [h1, h2]
        · by_cases hp : (prepareAppBlocked a0 b k).2 = false
          · simp [h1, h2, hp]
          · by_cases hw : (prepareAppBlocked a0 b k).1.isWildcard <;>
              simp [h1, h2, hp, hw]
  · unfold updateAppBlockedOp saveAppBlockedOp
    cases hload : loadAppById env s.store id with
    | none => simp [pushAfterCommit, pushAfterCommitAux]
    | some a0 =>
      by_cases h1 : fs.f1
      · by_cases hp : (prepareAppBlocked a0 b k).2 = false <;>
          simp [h1, hp, pushAfterCommit, pushAfterCommitAux, isPushEvent]
      · by_cases h2 : fs.f2
        · by_cases hp : (prepareAppBlocked a0 b k).2 = false <;>
            simp [h1, h2, hp, pushAfterCommit, pushAfterCommitAux, isPushEvent]
        · by_cases hp : (prepareAppBlocked a0 b k).2 = false
          · simp [h1, h2, hp, pushAfterCommit, pushAfterCommitAux]
          · by_cases hw : (prepareAppBlocked a0 b k).1.isWildcard <;>
              simp [h1, h2, hp, hw, pushAfterCommit, pushAfterCommitAux,
                pushAfterCommitAux_true, isPushEvent]
  · unfold deleteAppOp
    by_cases h1 : fs.f1
    · simp [h1]
    · cases hdel : runDeleteApp s.store id with
      | none => simp [h1, hdel]
      | some del =>
        by_cases h2 : fs.f2
        · simp [h1, h2, hdel]
        · by_cases hw : del.2.2 <;> simp [h1, h2, hdel, hw]
  · unfold deleteAppOp
    by_cases h1 : fs.f1
    · simp [h1, pushAfterCommit, pushAfterCommitAux, isPushEvent]
    · cases hdel : runDeleteApp s.store id with
      | none => simp [h1, hdel, pushAfterCommit, pushAfterCommitAux, isPushEvent]
      | some del =>
        by_cases h2 : fs.f2
        · simp [h1, h2, hdel, pushAfterCommit, pushAfterCommitAux, isPushEvent]
        · by_cases hw : del.2.2 <;>
            simp [h1, h2, hdel, hw, pushAfterCommit, pushAfterCommitAux,
              pushAfterCommitAux_true, isPushEvent]

/-! ### C7: the alerted flag's lifecycle -/

theorem loadAppById_appId (env : List Nat) (st : Store) (id : Nat) (a : App)
    (h : loadAppById env st id = some a) : a.appId = id := by
  unfold loadAppById at h
  cases hf : st.rows.find? (fun r => r.appId == id) with
  | none =>
    rw [hf] at h
    cases h
  | some r =>
    rw [hf] at h
    have hbeq := List.find?_some hf
    have hid : r.appId = id := beq_iff_eq.mp hbeq
    by_cases hg : env.contains r.appGroupId
    · simp only [hg, if_true] at h
      have ha : fillApp env st r = a := Option.some.inj h
      rw [← ha]
      exact hid
    · exfalso
      simp at h
      exact hg ((contains_eq_true_iff_mem _ _).mpr h.1)

/-- C7 counterexample: an entry auto-created from a blocked-connection event
is alerted, and a subsequent name-only update (`updateAppName`) leaves the
alert record in place — `alerted` is still true afterwards, contradicting
"alerted is false after any ... name-only update". -/
theorem c7_counterexample :
    isAlerted c7ex_state1.store 1 = true
    ∧ isAlerted (updateAppNameOp c7ex_state1 1 "B" noFaults).1.store 1 = true := by
  decide

/-- C7 amended: `alerted` is true immediately after an entry is auto-created
from an unrecognized blocked-connection event, and false after any
successful explicit full update or blocked-state update on that id; a
name-only update, however, does not touch the alert side-table, so it leaves
the `alerted` flag unchanged. -/
theorem c7_amended_alert_lifecycle (env : List Nat) (d : DriverOracle)
    (s : MgrState) (g : Nat) (op p n nm : String) (b bl k : Bool) (now : Int)
    (a : App) (id : Nat) (iw : Bool) (fs : Faults) :
    (env.get? 0 = some g → appIdByPath s.store p = 0 → ¬ p = "" →
      (∀ rr ∈ s.store.rows, 0 < rr.appId) →
      s.store.alerts.contains s.store.nextId = false →
      isAlerted (logBlockedAppOp env s op p n b now).1.store s.store.nextId = true)
    ∧ ((updateAppOp env d s a fs).2.1 = true →
      isAlerted (updateAppOp env d s a fs).1.store a.appId = false)
    ∧ ((updateAppBlockedOp env d s id bl k iw fs).2.1 = true →
      isAlerted (updateAppBlockedOp env d s id bl k iw fs).1.store id = false)
    ∧ (updateAppNameOp s id nm fs).1.store.alerts = s.store.alerts := by
  refine ⟨?_, ?_, ?_, ?_⟩
  · intro hg hfound hp hpos hfresh
    have hfind : findRowByPath s.store.rows p = none := by
      cases hf : findRowByPath s.store.rows p with
      | none => rfl
      | some r =>
        have hmem := List.mem_of_find?_eq_some hf
        have hpos2 := hpos r hmem
        have hzero : r.appId = 0 := by
          unfold appIdByPath at hfound
          rw [hf] at hfound
          exact hfound
        omega
    have hnm : s.store.nextId ∉ s.store.alerts := by
      intro hm
      rw [(contains_eq_true_iff_mem _ _).mpr hm] at hfresh
      exact absurd hfresh (by decide)
    unfold logBlockedAppOp
    have h0 : ¬ appIdByPath s.store p > 0 := by
      rw [hfound]
      omega
    simp only [h0, if_false]
    unfold addOrUpdateAppOp
    rw [hg]
    unfold runUpsertApp
    simp only [noFaults, Bool.false_eq_true, if_false]
    unfold pathVar
    simp only [hp, if_false, hfind]
    unfold runInsertAppAlert
    simp [hfresh, hnm, isAlerted, List.contains]
  · intro hok
    unfold updateAppOp at hok ⊢
    revert hok
    cases hg : env.get? a.groupIndex with
    | none =>
      intro hok
      simp at hok
    | some g2 =>
      intro hok
      by_cases h1 : fs.f1
      · simp [h1] at hok
      · by_cases h2 : fs.f2
        · simp [h1, h2] at hok
        · simp only [h1, h2, Bool.false_eq_true, if_false]
          exact contains_filter_ne _ _
  · intro hok
    unfold updateAppBlockedOp saveAppBlockedOp at hok ⊢
    revert hok
    cases hload : loadAppById env s.store id with
    | none =>
      intro hok
      simp at hok
    | some a0 =>
      intro hok
      have hid : a0.appId = id := loadAppById_appId env s.store id a0 hload
      by_cases hp2 : (prepareAppBlocked a0 bl k).2 = false
      · simp [hp2] at hok
      · by_cases h1 : fs.f1
        · simp [hp2, h1] at hok
        · by_cases h2 : fs.f2
          · simp [hp2, h1, h2] at hok
          · have hpid : (prepareAppBlocked a0 bl k).1.appId = id := by
              unfold prepareAppBlocked
              by_cases hc : (!a0.alerted && (a0.blocked == bl && a0.killProcess == k)) = true
              · simp only [hc, if_true]
                exact hid
              · simp only [hc, if_false]
                exact hid
            by_cases hw : (prepareAppBlocked a0 bl k).1.isWildcard <;>
              simp only [hp2, h1, h2, hw, Bool.false_eq_true, if_false, if_true] <;>
              · rw [← hpid]
                exact contains_filter_ne _ _
  · unfold updateAppNameOp runUpdateAppName
    by_cases h1 : fs.f1 <;> simp [h1]

/-- C7 witness: the amended lifecycle at concrete inputs — an auto-created
entry is alerted, a full update clears the flag, and a name-only update
preserves the alert list. -/
theorem c7_witness :
    isAlerted (logBlockedAppOp [7] c7ex_state0 "P" "p" "N" true 100).1.store 1 = true
    ∧ (updateAppNameOp c7ex_state1 1 "B" noFaults).1.store.alerts
        = c7ex_state1.store.alerts :=
  ⟨(c7_amended_alert_lifecycle [7] { } c7ex_state0 7 "P" "p" "N" "B" true true false 100
      { } 1 false noFaults).1
      rfl (by decide) (by decide) (by decide) (by decide),
   (c7_amended_alert_lifecycle [7] { } c7ex_state1 7 "P" "p" "N" "B" true true false 100
      { } 1 false noFaults).2.2.2⟩

/-! ### C2: upsert-on-conflict keyed by path -/

theorem pathUnique_nil : pathUnique ([] : List Row) := by
  intro p
  simp [countPath]

theorem countPath_zero_iff_find_none (rows : List Row) (p : String) :
    countPath rows p = 0 ↔ findRowByPath rows p = none := by
  unfold countPath findRowByPath
  rw [List.length_eq_zero, List.filter_eq_nil_iff, List.find?_eq_none]

theorem find?_append_none {α : Type} (p : α → Bool) (l1 l2 : List α)
    (h : l1.find? p = none) : (l1 ++ l2).find? p = l2.find? p := by
  induction l1 with
  | nil => simp
  | cons x xs ih =>
    cases hx : p x
    · simp only [List.find?_cons, hx] at h
      simp only [List.cons_append, List.find?_cons, hx]
      exact ih h
    · simp only [List.find?_cons, hx] at h
      cases h

theorem find?_map_of_pred_preserved (g : Row → Row) (p : Row → Bool)
    (hp : ∀ r, p (g r) = p r) (rows : List Row) :
    (rows.map g).find? p = Option.map g (rows.find? p) := by
  induction rows with
  | nil => rfl
  | cons x xs ih =>
    cases hx : p x
    · have hgx : p (g x) = false := (hp x).trans hx
      simp only [List.map_cons, List.find?_cons, hx, hgx]
      exact ih
    · have hgx : p (g x) = true := (hp x).trans hx
      simp only [List.map_cons, List.find?_cons, hx, hgx]
      rfl

theorem countPath_map_of_path_preserved (g : Row → Row)
    (hg : ∀ r, (g r).path = r.path) (rows : List Row) (p : String) :
    countPath (rows.map g) p = countPath rows p := by
  unfold countPath
  induction rows with
  | nil => rfl
  | cons x xs ih =>
    have hx : rowPathIs p (g x) = rowPathIs p x := by
      unfold rowPathIs
      rw [hg]
    simp only [List.map_cons, List.filter_cons, hx]
    cases hpx : rowPathIs p x <;> simp [ih]

theorem countPath_append (l1 l2 : List Row) (p : String) :
    countPath (l1 ++ l2) p = countPath l1 p + countPath l2 p := by
  unfold countPath
  rw [List.filter_append, List.length_append]

theorem countPath_pos_of_find_some (rows : List Row) (p : String) (r : Row)
    (h : findRowByPath rows p = some r) : 1 ≤ countPath rows p := by
  have hmem := List.mem_of_find?_eq_some h
  have hpred := List.find?_some h
  have hin : r ∈ rows.filter (rowPathIs p) := List.mem_filter.mpr ⟨hmem, hpred⟩
  exact List.length_pos.mpr (List.ne_nil_of_mem hin)

theorem runUpsertApp_insert_eq (st : Store) (g : Nat) (a : App) (now : Int) (P : String)
    (hpv : pathVar a.appPath = some P) (hf : findRowByPath st.rows P = none) :
    runUpsertApp st g a now
      = ({ st with
            rows := st.rows ++ [newRowFromApp g a st.nextId now],
            nextId := st.nextId + 1 }, st.nextId) := by
  unfold runUpsertApp
  simp only [hpv, hf]

theorem runUpsertApp_update_eq (st : Store) (g : Nat) (a : App) (now : Int)
    (P : String) (r0 : Row)
    (hpv : pathVar a.appPath = some P) (hf : findRowByPath st.rows P = some r0) :
    runUpsertApp st g a now
      = ({ st with rows := updateRowById st.rows r0.appId (upsertFields g a) }, r0.appId) := by
  unfold runUpsertApp
  simp only [hpv, hf]

/-- Characterization of one `sqlUpsertApp` run with a non-empty path `P`:
exactly one row for `P` remains, it carries the app's writable fields and
the returned id; path uniqueness is preserved; and when a row for `P`
already existed, that row's id is returned and no row is added. -/
theorem runUpsertApp_char (st : Store) (g : Nat) (a : App) (now : Int) (P : String)
    (hP : a.appPath = P) (hne : ¬ P = "") (hu : pathUnique st.rows) :
    countPath (runUpsertApp st g a now).1.rows P = 1
    ∧ (∃ r, findRowByPath (runUpsertApp st g a now).1.rows P = some r
        ∧ r.appId = (runUpsertApp st g a now).2 ∧ r.path = some P ∧ rowMatchesApp g a r)
    ∧ pathUnique (runUpsertApp st g a now).1.rows
    ∧ (∀ r0, findRowByPath st.rows P = some r0 →
        (runUpsertApp st g a now).2 = r0.appId
        ∧ (runUpsertApp st g a now).1.rows.length = st.rows.length) := by
  have hpv : pathVar a.appPath = some P := by
    unfold pathVar
    rw [hP]
    simp [hne]
  cases hf : findRowByPath st.rows P with
  | none =>
    rw [runUpsertApp_insert_eq st g a now P hpv hf]
    dsimp only
    have hc0 : countPath st.rows P = 0 := (countPath_zero_iff_find_none st.rows P).mpr hf
    have hnewpath : (newRowFromApp g a st.nextId now).path = some P := by
      unfold newRowFromApp
      exact hpv
    have hnewpred : rowPathIs P (newRowFromApp g a st.nextId now) = true := by
      unfold rowPathIs
      rw [hnewpath]
      exact beq_self_eq_true _
    refine ⟨?_, ?_, ?_, ?_⟩
    · rw [countPath_append, hc0]
      simp [countPath, List.filter, hnewpred]
    · refine ⟨newRowFromApp g a st.nextId now, ?_, rfl, hnewpath, ?_⟩
      · rw [show findRowByPath (st.rows ++ [newRowFromApp g a st.nextId now]) P
            = List.find? (rowPathIs P) (st.rows ++ [newRowFromApp g a st.nextId now]) from rfl,
          find?_append_none _ _ _ hf]
        simp [List.find?, hnewpred]
      · exact ⟨rfl, rfl, rfl, rfl, rfl, rfl, rfl, rfl, rfl, rfl, rfl, rfl, rfl, rfl, rfl⟩
    · intro q
      rw [countPath_append]
      by_cases hq : q = P
      · subst hq
        rw [hc0]
        simp [countPath, List.filter, hnewpred]
      · have hzq : countPath [newRowFromApp g a st.nextId now] q = 0 := by
          have : rowPathIs q (newRowFromApp g a st.nextId now) = false := by
            unfold rowPathIs
            rw [hnewpath]
            simp
            intro hPq
            exact hq hPq.symm
          simp [countPath, List.filter, this]
        rw [hzq]
        simpa using hu q
    · intro r0 h0
      cases h0
  | some r0 =>
    rw [runUpsertApp_update_eq st g a now P r0 hpv hf]
    dsimp only
    have hpred0 := List.find?_some hf
    have hpath0 : r0.path = some P := by
      unfold rowPathIs at hpred0
      exact beq_iff_eq.mp hpred0
    have hpres : ∀ r, ((fun r => if r.appId == r0.appId then upsertFields g a r else r) r).path
        = r.path := by
      intro r
      by_cases hb : r.appId == r0.appId
      · simp only [hb, if_true]
        rfl
      · simp [hb]
    have hpredpres : ∀ r, rowPathIs P
        ((fun r => if r.appId == r0.appId then upsertFields g a r else r) r)
        = rowPathIs P r := by
      intro r
      unfold rowPathIs
      rw [hpres r]
    have hcount : countPath (updateRowById st.rows r0.appId (upsertFields g a)) P
        = countPath st.rows P := by
      unfold updateRowById
      exact countPath_map_of_path_preserved _ hpres st.rows P
    have hc1 : countPath st.rows P = 1 :=
      Nat.le_antisymm (hu P) (countPath_pos_of_find_some st.rows P r0 hf)
    have hfind2 : findRowByPath (updateRowById st.rows r0.appId (upsertFields g a)) P
        = some (upsertFields g a r0) := by
      unfold findRowByPath updateRowById
      rw [find?_map_of_pred_preserved _ _ hpredpres st.rows]
      rw [show List.find? (rowPathIs P) st.rows = some r0 from hf]
      simp
    refine ⟨?_, ?_, ?_, ?_⟩
    · rw [hcount, hc1]
    · refine ⟨upsertFields g a r0, hfind2, rfl, hpath0, ?_⟩
      exact ⟨rfl, rfl, rfl, rfl, rfl, rfl, rfl, rfl, rfl, rfl, rfl, rfl, rfl, rfl, rfl⟩
    · intro q
      have : countPath (updateRowById st.rows r0.appId (upsertFields g a)) q
          = countPath st.rows q := by
        unfold updateRowById
        exact countPath_map_of_path_preserved _ hpres st.rows q
      rw [this]
      exact hu q
    · intro rr h0
      have : r0 = rr := Option.some.inj h0
      subst this
      refine ⟨rfl, ?_⟩
      unfold updateRowById
      exact List.length_map _ _

/-- C2: for a non-empty normalized path `P`, a second upsert with path `P`
updates the existing row in place and returns its id: afterwards there is
exactly one row for `P`, it holds the second upsert's field values and the
same id the first upsert produced, and no additional row was created. -/
theorem c2_upsert_no_duplicates (st : Store) (g1 g2 : Nat) (a1 a2 : App)
    (now1 now2 : Int) (P : String)
    (hP1 : a1.appPath = P) (hP2 : a2.appPath = P) (hne : ¬ P = "")
    (hu : pathUnique st.rows) :
    ∃ r, findRowByPath (runUpsertApp (runUpsertApp st g1 a1 now1).1 g2 a2 now2).1.rows P
        = some r
      ∧ (runUpsertApp (runUpsertApp st g1 a1 now1).1 g2 a2 now2).2
          = (runUpsertApp st g1 a1 now1).2
      ∧ r.appId = (runUpsertApp st g1 a1 now1).2
      ∧ rowMatchesApp g2 a2 r
      ∧ countPath (runUpsertApp (runUpsertApp st g1 a1 now1).1 g2 a2 now2).1.rows P = 1
      ∧ (runUpsertApp (runUpsertApp st g1 a1 now1).1 g2 a2 now2).1.rows.length
          = (runUpsertApp st g1 a1 now1).1.rows.length := by
  obtain ⟨hc1, ⟨r1, hf1, hid1, hp1, hm1⟩, hu1, _⟩ :=
    runUpsertApp_char st g1 a1 now1 P hP1 hne hu
  obtain ⟨hc2, ⟨r2, hf2, hid2, hp2, hm2⟩, hu2, hlast⟩ :=
    runUpsertApp_char (runUpsertApp st g1 a1 now1).1 g2 a2 now2 P hP2 hne hu1
  obtain ⟨hideq, hlen⟩ := hlast r1 hf1
  refine ⟨r2, hf2, ?_, ?_, hm2, hc2, hlen⟩
  · rw [hideq, hid1]
  · rw [hid2, hideq, hid1]

/-- C2 witness: two upserts with path "p" into an empty store. -/
theorem c2_witness :
    ∃ r, findRowByPath
        (runUpsertApp (runUpsertApp { rows := [], alerts := [], nextId := 1 }
          5 c2w_app1 10).1 6 c2w_app2 20).1.rows "p" = some r
      ∧ (runUpsertApp (runUpsertApp { rows := [], alerts := [], nextId := 1 }
          5 c2w_app1 10).1 6 c2w_app2 20).2
          = (runUpsertApp { rows := [], alerts := [], nextId := 1 } 5 c2w_app1 10).2
      ∧ r.appId = (runUpsertApp { rows := [], alerts := [], nextId := 1 } 5 c2w_app1 10).2
      ∧ rowMatchesApp 6 c2w_app2 r
      ∧ countPath (runUpsertApp (runUpsertApp { rows := [], alerts := [], nextId := 1 }
          5 c2w_app1 10).1 6 c2w_app2 20).1.rows "p" = 1
      ∧ (runUpsertApp (runUpsertApp { rows := [], alerts := [], nextId := 1 }
          5 c2w_app1 10).1 6 c2w_app2 20).1.rows.length
          = (runUpsertApp { rows := [], alerts := [], nextId := 1 } 5 c2w_app1 10).1.rows.length :=
  c2_upsert_no_duplicates { rows := [], alerts := [], nextId := 1 } 5 6 c2w_app1 c2w_app2
    10 20 "p" rfl rfl (by decide) pathUnique_nil

/-! ### C4: firing the expiry timer -/

theorem updateAppOp_ok_eq (env : List Nat) (d : DriverOracle) (s : MgrState)
    (a : App) (g : Nat) (hg : env.get? a.groupIndex = some g) :
    updateAppOp env d s a noFaults
      = ({ store := runDeleteAppAlert (runUpdateApp s.store g a) a.appId,
           driveMask := (updateDriverUpdateAppConfFx d s.driveMask a).1 }, true,
         [Event.commit, Event.notifyUpdated] ++ (updateDriverUpdateAppConfFx d s.driveMask a).2.2) := by
  unfold updateAppOp
  rw [hg]
  simp [noFaults]

theorem updateAppEndTimer_pos (st : Store) (now t : Int)
    (hmin : selectMinEndApp st = t) (hne : ¬ t = 0) (hpos : t - now > 0) :
    updateAppEndTimer st now
      = some (max (min (t - now) APP_END_TIMER_INTERVAL_MAX) APP_END_TIMER_INTERVAL_MIN) := by
  unfold updateAppEndTimer
  rw [hmin]
  have hbne : (t != 0) = true := by
    simp [hne]
  simp [hbne, hpos]

/-- C4: with three unblocked rows whose end times satisfy
`0 < t1 ≤ now < t2 < t3`, one timer firing at `now` forces entry 1 to
`blocked = true`, `killProcess = false` with `endTime` cleared through the
full update path (alert cleared, notification emitted), leaves entries 2
and 3 untouched, and recomputes the next deadline as `t2` — the timer is
re-armed for `max(clamp(t2 - now, 0, 1 day), 100ms)`. -/
theorem c4_expiry_fires (env : List Nat) (d : DriverOracle) (alerts : List Nat)
    (nid m : Nat) (r1 r2 r3 : Row) (t1 t2 t3 now : Int)
    (h1 : r1.endTime = some t1) (h2 : r2.endTime = some t2) (h3 : r3.endTime = some t3)
    (hb1 : r1.blocked = false) (hb2 : r2.blocked = false) (hb3 : r3.blocked = false)
    (hg1 : r1.appGroupId ∈ env)
    (hid12 : ¬ r2.appId = r1.appId) (hid13 : ¬ r3.appId = r1.appId)
    (ht0 : 0 < t1) (htn : t1 ≤ now) (hn2 : now < t2) (h23 : t2 < t3) :
    ((updateAppEndTimesOp env d ⟨⟨[r1, r2, r3], alerts, nid⟩, m⟩ now).1.store.rows.map
        (fun r => (r.appId, r.blocked, r.killProcess, r.endTime)))
        = [(r1.appId, true, false, none),
           (r2.appId, r2.blocked, r2.killProcess, r2.endTime),
           (r3.appId, r3.blocked, r3.killProcess, r3.endTime)]
    ∧ isAlerted (updateAppEndTimesOp env d ⟨⟨[r1, r2, r3], alerts, nid⟩, m⟩ now).1.store
        r1.appId = false
    ∧ selectMinEndApp (updateAppEndTimesOp env d ⟨⟨[r1, r2, r3], alerts, nid⟩, m⟩ now).1.store
        = t2
    ∧ (updateAppEndTimesOp env d ⟨⟨[r1, r2, r3], alerts, nid⟩, m⟩ now).2.2
        = some (max (min (t2 - now) APP_END_TIMER_INTERVAL_MAX) APP_END_TIMER_INTERVAL_MIN)
    ∧ Event.notifyUpdated ∈ (updateAppEndTimesOp env d ⟨⟨[r1, r2, r3], alerts, nid⟩, m⟩ now).2.1 := by
  have hcont1 : env.contains r1.appGroupId = true := (contains_eq_true_iff_mem _ _).mpr hg1
  have hd1 : decide (t1 ≤ now) = true := decide_eq_true htn
  have hd2 : decide (t2 ≤ now) = false := decide_eq_false (not_le.mpr hn2)
  have hd3 : decide (t3 ≤ now) = false := decide_eq_false (not_le.mpr (lt_trans hn2 h23))
  have hsel : selectEndedApps env { rows := [r1, r2, r3], alerts := alerts, nextId := nid } now
      = [r1] := by
    unfold selectEndedApps
    simp [List.filter_cons, h1, h2, h3, hb1, hb2, hb3, hg1, hd1, hd2, hd3]
  have hga : env.get? ({ (fillApp env { rows := [r1, r2, r3], alerts := alerts, nextId := nid } r1) with blocked := true, killProcess := false } : App).groupIndex
      = some r1.appGroupId := by
    have hgi : ({ (fillApp env { rows := [r1, r2, r3], alerts := alerts, nextId := nid } r1) with blocked := true, killProcess := false } : App).groupIndex
        = env.indexOf r1.appGroupId := rfl
    rw [hgi]
    exact get?_indexOf env r1.appGroupId hg1
  have hbeq2 : (r2.appId == r1.appId) = false := by
    simp [hid12]
  have hbeq3 : (r3.appId == r1.appId) = false := by
    simp [hid13]
  have ht2pos : (0 : Int) < t2 := lt_trans (lt_of_lt_of_le ht0 htn) hn2
  have ht3pos : (0 : Int) < t3 := lt_trans ht2pos h23
  have hne2 : (t2 == 0) = false := by
    simp
    exact ne_of_gt ht2pos
  have hne3 : (t3 == 0) = false := by
    simp
    exact ne_of_gt ht3pos
  unfold updateAppEndTimesOp
  dsimp only
  rw [hsel]
  unfold updateAppEndTimesLoop
  dsimp only
  rw [updateAppOp_ok_eq env d _ _ r1.appGroupId hga]
  unfold updateAppEndTimesLoop
  dsimp only
  have hrows : (runDeleteAppAlert (runUpdateApp { rows := [r1, r2, r3], alerts := alerts, nextId := nid } r1.appGroupId ({ (fillApp env { rows := [r1, r2, r3], alerts := alerts, nextId := nid } r1) with blocked := true, killProcess := false } : App)) r1.appId).rows.map (fun r => (r.appId, r.blocked, r.killProcess, r.endTime))
      = [(r1.appId, true, false, none),
         (r2.appId, r2.blocked, r2.killProcess, r2.endTime),
         (r3.appId, r3.blocked, r3.killProcess, r3.endTime)] := by
    unfold runDeleteAppAlert runUpdateApp updateRowById fillApp
    simp [upsertFields, hbeq2, hbeq3, hid12, hid13]
  have ht2ne : ¬ t2 = 0 := ne_of_gt ht2pos
  have ht3ne : ¬ t3 = 0 := ne_of_gt ht3pos
  have hpend : pendingEndTimes (runDeleteAppAlert (runUpdateApp { rows := [r1, r2, r3], alerts := alerts, nextId := nid } r1.appGroupId ({ (fillApp env { rows := [r1, r2, r3], alerts := alerts, nextId := nid } r1) with blocked := true, killProcess := false } : App)) r1.appId)
      = [t2, t3] := by
    unfold pendingEndTimes runDeleteAppAlert runUpdateApp updateRowById fillApp
    simp [upsertFields, List.filterMap_cons, hid12, hid13, h2, h3, hb2, hb3,
      ht2ne, ht3ne]
  have hminv : selectMinEndApp (runDeleteAppAlert (runUpdateApp { rows := [r1, r2, r3], alerts := alerts, nextId := nid } r1.appGroupId ({ (fillApp env { rows := [r1, r2, r3], alerts := alerts, nextId := nid } r1) with blocked := true, killProcess := false } : App)) r1.appId)
      = t2 := by
    unfold selectMinEndApp
    rw [hpend]
    simp only [List.foldl_cons, List.foldl_nil]
    exact min_eq_left (le_of_lt h23)
  refine ⟨hrows, ?_, hminv, ?_, ?_⟩
  · exact contains_filter_ne alerts r1.appId
  · exact updateAppEndTimer_pos _ now t2 hminv ht2ne (sub_pos.mpr hn2)
  · simp

/-- C4 witness: three concrete scheduled blocks at 1000 < 2000 < 3000 fired
at 1500. -/
theorem c4_witness :
    ((updateAppEndTimesOp [4] { } ⟨⟨[plainRow 1 4 false (some 1000) false, plainRow 2 4 false (some 2000) false, plainRow 3 4 false (some 3000) false], [1], 4⟩, 0⟩ 1500).1.store.rows.map
        (fun r => (r.appId, r.blocked, r.killProcess, r.endTime)))
        = [((plainRow 1 4 false (some 1000) false).appId, true, false, none),
           ((plainRow 2 4 false (some 2000) false).appId, (plainRow 2 4 false (some 2000) false).blocked, (plainRow 2 4 false (some 2000) false).killProcess, (plainRow 2 4 false (some 2000) false).endTime),
           ((plainRow 3 4 false (some 3000) false).appId, (plainRow 3 4 false (some 3000) false).blocked, (plainRow 3 4 false (some 3000) false).killProcess, (plainRow 3 4 false (some 3000) false).endTime)]
    ∧ isAlerted (updateAppEndTimesOp [4] { } ⟨⟨[plainRow 1 4 false (some 1000) false, plainRow 2 4 false (some 2000) false, plainRow 3 4 false (some 3000) false], [1], 4⟩, 0⟩ 1500).1.store
        (plainRow 1 4 false (some 1000) false).appId = false
    ∧ selectMinEndApp (updateAppEndTimesOp [4] { } ⟨⟨[plainRow 1 4 false (some 1000) false, plainRow 2 4 false (some 2000) false, plainRow 3 4 false (some 3000) false], [1], 4⟩, 0⟩ 1500).1.store
        = 2000
    ∧ (updateAppEndTimesOp [4] { } ⟨⟨[plainRow 1 4 false (some 1000) false, plainRow 2 4 false (some 2000) false, plainRow 3 4 false (some 3000) false], [1], 4⟩, 0⟩ 1500).2.2
        = some (max (min ((2000 : Int) - 1500) APP_END_TIMER_INTERVAL_MAX) APP_END_TIMER_INTERVAL_MIN)
    ∧ Event.notifyUpdated ∈ (updateAppEndTimesOp [4] { } ⟨⟨[plainRow 1 4 false (some 1000) false, plainRow 2 4 false (some 2000) false, plainRow 3 4 false (some 3000) false], [1], 4⟩, 0⟩ 1500).2.1 :=
  c4_expiry_fires [4] { } [1] 4 0
    (plainRow 1 4 false (some 1000) false) (plainRow 2 4 false (some 2000) false)
    (plainRow 3 4 false (some 3000) false) 1000 2000 3000 1500
    rfl rfl rfl rfl rfl rfl (by decide) (by decide) (by decide)
    (by decide) (by decide) (by decide) (by decide)

/-! ### C6: driver pushes on deletion -/

theorem runDeleteApp_some_eq (st : Store) (i : Nat) (r : Row)
    (hfind : st.rows.find? (fun q => q.appId == i) = some r) :
    runDeleteApp st i
      = some ({ st with rows := st.rows.filter (fun q => !(q.appId == i)) },
              r.path, r.isWildcard) := by
  unfold runDeleteApp
  simp only [hfind]

theorem countEntryPushes_append (t1 t2 : List Event) :
    countEntryPushes (t1 ++ t2) = countEntryPushes t1 + countEntryPushes t2 := by
  unfold countEntryPushes
  rw [List.filter_append, List.length_append]

theorem countSnapshotPushes_append (t1 t2 : List Event) :
    countSnapshotPushes (t1 ++ t2)
      = countSnapshotPushes t1 + countSnapshotPushes t2 := by
  unfold countSnapshotPushes
  rw [List.filter_append, List.length_append]

/-- Deleting an id whose (sole) row is non-wildcard: success, one
single-entry removal push attempt, no snapshot push, and the row is
filtered out. -/
theorem deleteAppOp_nonwild_eq (d : DriverOracle) (s : MgrState) (i : Nat)
    (iw : Bool) (r : Row)
    (hfind : s.store.rows.find? (fun q => q.appId == i) = some r)
    (hnw : r.isWildcard = false)
    (henc : d.entryEncodeOk = true) :
    (deleteAppOp d s i iw noFaults).1.store.rows
        = s.store.rows.filter (fun q => !(q.appId == i))
    ∧ (deleteAppOp d s i iw noFaults).2.1 = true
    ∧ (deleteAppOp d s i iw noFaults).2.2.1 = iw
    ∧ countEntryPushes (deleteAppOp d s i iw noFaults).2.2.2 = 1
    ∧ countSnapshotPushes (deleteAppOp d s i iw noFaults).2.2.2 = 0 := by
  unfold deleteAppOp
  rw [show (if noFaults.f1 then none else runDeleteApp s.store i)
      = runDeleteApp s.store i from rfl,
    runDeleteApp_some_eq s.store i r hfind]
  by_cases hpush : d.entryPushOk <;>
    simp [noFaults, hnw, updateDriverUpdateAppFx, henc, hpush,
      countEntryPushes, countSnapshotPushes, isEntryPush, isSnapshotPush,
      runDeleteAppAlert]

/-- Deleting an id whose row is wildcard: success, the wildcard flag is set,
and no driver push happens in `deleteApp` itself. -/
theorem deleteAppOp_wild_eq (d : DriverOracle) (s : MgrState) (i : Nat)
    (iw : Bool) (r : Row)
    (hfind : s.store.rows.find? (fun q => q.appId == i) = some r)
    (hw : r.isWildcard = true) :
    deleteAppOp d s i iw noFaults
      = ({ s with store := (runDeleteAppAlert { s.store with rows := s.store.rows.filter (fun q => !(q.appId == i)) } i) }, true, true, [Event.commit, Event.notifyChanged]) := by
  unfold deleteAppOp
  rw [show (if noFaults.f1 then none else runDeleteApp s.store i)
      = runDeleteApp s.store i from rfl,
    runDeleteApp_some_eq s.store i r hfind]
  simp [noFaults, hw]

/-- The batch-delete loop over distinct ids of existing non-wildcard rows:
the wildcard flag stays false, and there is exactly one single-entry push
per id and no snapshot push. -/
theorem deleteAppsLoop_nonwild (d : DriverOracle) (henc : d.entryEncodeOk = true)
    (ids : List Nat) :
    ∀ (s : MgrState),
      (∀ i ∈ ids, (∃ q ∈ s.store.rows, q.appId = i)
        ∧ (∀ q ∈ s.store.rows, q.appId = i → q.isWildcard = false)) →
      ids.Nodup →
      (deleteAppsLoop d s ids false).2.1 = false
      ∧ countEntryPushes (deleteAppsLoop d s ids false).2.2 = ids.length
      ∧ countSnapshotPushes (deleteAppsLoop d s ids false).2.2 = 0 := by
  induction ids with
  | nil =>
    intro s _ _
    simp [deleteAppsLoop, countEntryPushes, countSnapshotPushes]
  | cons i rest ih =>
    intro s hall hnd
    obtain ⟨⟨q0, hq0mem, hq0id⟩, hnwi⟩ := hall i (List.mem_cons_self i rest)
    have hfind : ∃ r, s.store.rows.find? (fun q => q.appId == i) = some r := by
      cases hf : s.store.rows.find? (fun q => q.appId == i) with
      | some r => exact ⟨r, rfl⟩
      | none =>
        exfalso
        have := List.find?_eq_none.mp hf q0 hq0mem
        rw [hq0id] at this
        simp at this
    obtain ⟨r, hr⟩ := hfind
    have hrmem := List.mem_of_find?_eq_some hr
    have hrpred := List.find?_some hr
    have hrid : r.appId = i := beq_iff_eq.mp hrpred
    have hrnw : r.isWildcard = false := hnwi r hrmem hrid
    obtain ⟨hrows, hok, hiw, hcnt1, hcnt0⟩ :=
      deleteAppOp_nonwild_eq d s i false r hr hrnw henc
    have hnotin : i ∉ rest := (List.nodup_cons.mp hnd).1
    have hnd2 : rest.Nodup := (List.nodup_cons.mp hnd).2
    have hall2 : ∀ j ∈ rest,
        (∃ q ∈ (deleteAppOp d s i false noFaults).1.store.rows, q.appId = j)
        ∧ (∀ q ∈ (deleteAppOp d s i false noFaults).1.store.rows,
            q.appId = j → q.isWildcard = false) := by
      intro j hj
      obtain ⟨⟨q, hqmem, hqid⟩, hnwj⟩ := hall j (List.mem_cons_of_mem _ hj)
      rw [hrows]
      have hji : ¬ j = i := fun he => hnotin (he ▸ hj)
      constructor
      · refine ⟨q, List.mem_filter.mpr ⟨hqmem, ?_⟩, hqid⟩
        simp [hqid, hji]
      · intro q2 hq2 hq2id
        exact hnwj q2 (List.mem_filter.mp hq2).1 hq2id
    obtain ⟨ihf, ihe, ihs⟩ := ih (deleteAppOp d s i false noFaults).1 hall2 hnd2
    unfold deleteAppsLoop
    dsimp only
    rw [hiw]
    refine ⟨ihf, ?_, ?_⟩
    · rw [countEntryPushes_append, hcnt1, ihe]
      simp [Nat.add_comm]
    · rw [countSnapshotPushes_append, hcnt0, ihs]

/-- C6 amended: deleting a single non-wildcard entry triggers exactly one
single-entry removal push and no snapshot push; deleting a wildcard entry
triggers exactly one full-snapshot push and no single-entry push; and
batch-deleting any number of distinct non-wildcard entries triggers one
single-entry push per entry and zero snapshot pushes — `deleteApps` has no
7-entry batch threshold (that threshold belongs to the batch blocked-state
update `updateAppsBlocked`, not to deletion). -/
theorem c6_amended_delete_pushes (d : DriverOracle) (s : MgrState)
    (ids : List Nat) (wid : Nat) (r : Row)
    (hall : ∀ i ∈ ids, (∃ q ∈ s.store.rows, q.appId = i)
        ∧ (∀ q ∈ s.store.rows, q.appId = i → q.isWildcard = false))
    (hnd : ids.Nodup)
    (henc : d.entryEncodeOk = true)
    (hsenc : d.snapshotEncodeOk = true)
    (hfindw : s.store.rows.find? (fun q => q.appId == wid) = some r)
    (hw : r.isWildcard = true) :
    (countEntryPushes (deleteAppsOp d s ids).2 = ids.length
      ∧ countSnapshotPushes (deleteAppsOp d s ids).2 = 0)
    ∧ (countEntryPushes (deleteAppsOp d s [wid]).2 = 0
      ∧ countSnapshotPushes (deleteAppsOp d s [wid]).2 = 1) := by
  constructor
  · obtain ⟨hf, he, hs0⟩ := deleteAppsLoop_nonwild d henc ids s hall hnd
    unfold deleteAppsOp
    dsimp only
    rw [hf]
    simp only [Bool.false_eq_true, if_false]
    exact ⟨he, hs0⟩
  · have hone := deleteAppOp_wild_eq d s wid false r hfindw hw
    unfold deleteAppsOp deleteAppsLoop
    dsimp only
    rw [hone]
    by_cases hpush : d.snapshotPushOk <;>
      simp [deleteAppsLoop, updateDriverConfFx, hsenc, hpush, countEntryPushes,
        countSnapshotPushes, isEntryPush, isSnapshotPush]

/-- C6 counterexample: batch-deleting 8 non-wildcard entries (more than 7)
triggers 8 single-entry removal pushes and zero full-snapshot pushes — there
is no 7-entry threshold in `deleteApps`, contradicting "batch-deleting more
than 7 entries triggers exactly one full-snapshot push". -/
theorem c6_counterexample :
    countEntryPushes
        (deleteAppsOp { } { store := c6ex_store, driveMask := 0 }
          [1, 2, 3, 4, 5, 6, 7, 8]).2 = 8
    ∧ countSnapshotPushes
        (deleteAppsOp { } { store := c6ex_store, driveMask := 0 }
          [1, 2, 3, 4, 5, 6, 7, 8]).2 = 0 := by
  decide

/-- C6 witness: 3 non-wildcard deletions give 3 single-entry pushes and no
snapshot; deleting the wildcard entry 9 gives one snapshot push and no
single-entry push. -/
theorem c6_witness :
    (countEntryPushes (deleteAppsOp { } { store := c6w_store, driveMask := 0 }
        [1, 2, 3]).2 = 3
      ∧ countSnapshotPushes (deleteAppsOp { } { store := c6w_store, driveMask := 0 }
        [1, 2, 3]).2 = 0)
    ∧ (countEntryPushes (deleteAppsOp { } { store := c6w_store, driveMask := 0 }
        [9]).2 = 0
      ∧ countSnapshotPushes (deleteAppsOp { } { store := c6w_store, driveMask := 0 }
        [9]).2 = 1) :=
  c6_amended_delete_pushes { } { store := c6w_store, driveMask := 0 }
    [1, 2, 3] 9 (plainRow 9 1 true none false)
    (by decide) (by decide) rfl rfl (by decide) rfl

end Fort
